import Mathlib

/-!
Verification of the HTML-to-JSON converter repository.

The repository extracts structured question/answer data from HTML medical-report
templates.  Its core is a pure function from a parsed HTML tree to a Document
record (title, metadata, sections with questions).  This file gives a shallow
embedding of that core, translated from the source files:

  * src/radreportconverter/fastapi_converter.py, convert_html_to_json (lines 8-93):
    the pure extractor taking HTML text (here: its parsed DOM forest).
  * src/radreportconverter/converter.py, convert_html_to_json (lines 24-138):
    the file-based variant with an empty-content check and a slightly different
    label fallback for textarea questions.
  * src/radreportconverter/converter.py, save_json_output (lines 140-210) and
    convert_all_html_files (lines 212-296): the batch driver.
  * src/converter.py: a legacy near-duplicate (label-only strategy).

The HTML parse tree is modelled by the inductive type Node; BeautifulSoup
queries used by the source (find_all, find with an attribute filter, the text
property, attribute get) are modelled by structurally recursive tree traversals
in document (preorder) order, which is the order BeautifulSoup uses.
-/

/-- Parsed HTML node: an element with a tag, an attribute list and children, or
a text node.  Models the BeautifulSoup tree the converters query. -/
inductive Node where
  | element (tag : String) (attrs : List (String × String)) (children : List Node)
  | text (s : String)

/-- Children of a node; a text node has none. -/
def nodeChildren : Node → List Node
  | Node.element _ _ cs => cs
  | Node.text _ => []

/-- Attribute lookup, modelling BeautifulSoup tag.get(name): the value of the
first attribute with the given name, if any. -/
def nodeAttr : Node → String → Option String
  | Node.element _ attrs _, a => attrs.lookup a
  | Node.text _, _ => none

mutual
/-- All elements with the given tag in the subtree rooted at a node, in
document (preorder) order, the node itself included.  Models find_all. -/
def findAllNode (tag : String) : Node → List Node
  | Node.text _ => []
  | Node.element t attrs cs =>
    (if t = tag then [Node.element t attrs cs] else []) ++ findAllForest tag cs
/-- All elements with the given tag in a forest, in document order. -/
def findAllForest (tag : String) : List Node → List Node
  | [] => []
  | n :: ns => findAllNode tag n ++ findAllForest tag ns
end

mutual
/-- Concatenated text of all text nodes in a subtree, in document order.
Models the BeautifulSoup text property. -/
def textOfNode : Node → String
  | Node.text s => s
  | Node.element _ _ cs => textOfForest cs
/-- Concatenated text of a forest. -/
def textOfForest : List Node → String
  | [] => ""
  | n :: ns => textOfNode n ++ textOfForest ns
end

/-- Python str.strip(): drop whitespace characters from both ends.  Defined
structurally over the character list so that it computes by rfl. -/
def dropWhileWs : List Char → List Char
  | [] => []
  | c :: cs => if c.isWhitespace then dropWhileWs cs else c :: cs

/-- Python str.strip() on a string: strip leading and trailing whitespace. -/
def pyStrip (s : String) : String :=
  String.mk ((dropWhileWs ((dropWhileWs s.data).reverse)).reverse)

/-- First element with the given tag in a forest, in document order.
Models soup.find(tag) and section.find(tag). -/
def findFirst (tag : String) (ns : List Node) : Option Node :=
  (findAllForest tag ns).head?

/-- Question record, as built by the converters (a JSON-shaped dict in the
source).  element_id is present only for textarea-derived questions. -/
structure Question where
  id : Nat
  label : String
  answer : String
  field_type : String
  element_id : Option String
deriving Repr, DecidableEq

/-- Section record: resolved name plus the questions extracted from it. -/
structure Sect where
  name : String
  questions : List Question
deriving Repr, DecidableEq

/-- Document record: title, the five-key metadata mapping (an ordered
association list, as a Python dict preserves insertion order) and the
sections in document order. -/
structure Doc where
  title : String
  metadata : List (String × Option String)
  sections : List Sect
deriving Repr, DecidableEq

/-- The five fixed metadata keys and the meta-tag names they are read from
(fastapi_converter.py lines 14-20). -/
def meta_fields : List (String × String) :=
  [("identifier", "dcterms.identifier"),
   ("language", "dcterms.language"),
   ("publisher", "dcterms.publisher"),
   ("date", "dcterms.date"),
   ("creator", "dcterms.creator")]

/-- First meta element whose name attribute equals the given value, in
document order.  Models soup.find(meta, name=value). -/
def findMeta (dom : List Node) (nm : String) : Option Node :=
  ((findAllForest "meta" dom).filter (fun m => nodeAttr m "name" = some nm)).head?

/-- Value recorded for one metadata key (fastapi_converter.py line 24):
the content attribute of the matching meta tag when that tag exists and the
attribute is present and non-empty, else none. -/
def metaValue (dom : List Node) (nm : String) : Option String :=
  match findMeta dom nm with
  | some m =>
    match nodeAttr m "content" with
    | some v => if v = "" then none else some v
    | none => none
  | none => none

/-- Header-or-synthesized fallback for a section name (fastapi_converter.py
lines 31-32): the trimmed text of the first header descendant if one exists,
else the string Section followed by the 1-based position. -/
def fallbackName (s : Node) (pos : Nat) : String :=
  match findFirst "header" (nodeChildren s) with
  | some h => pyStrip (textOfNode h)
  | none => "Section " ++ toString pos

/-- Section name resolution (fastapi_converter.py lines 29-32): the
data-section-name attribute when present and non-empty (Python truthiness:
an empty string falls through), else the header/synthesized fallback. -/
def resolveSectionName (s : Node) (pos : Nat) : String :=
  match nodeAttr s "data-section-name" with
  | some v => if v = "" then fallbackName s pos else v
  | none => fallbackName s pos

/-- First label descendant of the section whose for attribute equals the given
id.  Models section.find(label, for=taId). -/
def findLabelFor (s : Node) (taId : String) : Option Node :=
  ((findAllForest "label" (nodeChildren s)).filter
    (fun l => nodeAttr l "for" = some taId)).head?

/-- One textarea-derived question (fastapi_converter.py lines 44-58): label
from the associated label element when it exists and has non-empty trimmed
text, else the section name; answer the trimmed pre-filled text; field_type
from the data-field-type attribute, defaulting to TEXTAREA. -/
def mkTAQuestion (s : Node) (name : String) (ta : Node) (qid : Nat) : Question :=
  let taId := (nodeAttr ta "id").getD ""
  let labelText :=
    match findLabelFor s taId with
    | some l => if pyStrip (textOfNode l) ≠ "" then pyStrip (textOfNode l) else name
    | none => name
  { id := qid
    label := labelText
    answer := if textOfNode ta ≠ "" then pyStrip (textOfNode ta) else ""
    field_type := (nodeAttr ta "data-field-type").getD "TEXTAREA"
    element_id := some taId }

/-- Loop over the textareas of a section (fastapi_converter.py lines 44-58),
question ids counting up from the given value. -/
def textareaLoop (s : Node) (name : String) : List Node → Nat → List Question
  | [], _ => []
  | ta :: rest, qid => mkTAQuestion s name ta qid :: textareaLoop s name rest (qid + 1)

/-- Loop over the labels of a section (fastapi_converter.py lines 62-72):
one LABEL question per label with non-empty trimmed text, ids counting only
the emitted questions. -/
def labelLoop : List Node → Nat → List Question
  | [], _ => []
  | l :: rest, qid =>
    if pyStrip (textOfNode l) ≠ "" then
      { id := qid, label := pyStrip (textOfNode l), answer := "",
        field_type := "LABEL", element_id := none } :: labelLoop rest (qid + 1)
    else labelLoop rest qid

/-- Questions of one section (fastapi_converter.py lines 39-82): textarea
strategy if the section contains any textarea, else label strategy, and a
single SECTION placeholder question when neither produced anything. -/
def sectionQuestions (s : Node) (name : String) : List Question :=
  let qs :=
    match findAllForest "textarea" (nodeChildren s) with
    | [] => labelLoop (findAllForest "label" (nodeChildren s)) 0
    | ta :: rest => textareaLoop s name (ta :: rest) 0
  if qs.isEmpty then
    [{ id := 0, label := name, answer := "", field_type := "SECTION", element_id := none }]
  else qs

/-- One extracted section, given its 1-based position among the sections
processed so far. -/
def mkSect (s : Node) (pos : Nat) : Sect :=
  let name := resolveSectionName s pos
  { name := name, questions := sectionQuestions s name }

/-- Section loop of the extractor (fastapi_converter.py lines 27-84): each
section element is processed with position one plus the number of sections
already appended, and appended unconditionally. -/
def sectionsLoop : List Node → List Sect → List Sect
  | [], acc => acc
  | s :: rest, acc => sectionsLoop rest (acc ++ [mkSect s (acc.length + 1)])

/-- Document title (fastapi_converter.py lines 86-87): trimmed text of the
first title element, defaulting to Untitled Document. -/
def docTitle (dom : List Node) : String :=
  match findFirst "title" dom with
  | some t => pyStrip (textOfNode t)
  | none => "Untitled Document"

/-- The pure extractor, src/radreportconverter/fastapi_converter.py
convert_html_to_json (lines 8-93), taking the parsed DOM forest of the input
HTML text. -/
def convert_html_to_json (dom : List Node) : Doc :=
  { title := docTitle dom
    metadata := meta_fields.map (fun kv => (kv.1, metaValue dom kv.2))
    sections := sectionsLoop (findAllForest "section" dom) [] }

/-- Sections built from a list of section elements starting at a given 1-based
position: helper used to reason about the accumulator of sectionsLoop. -/
def buildSects : List Node → Nat → List Sect
  | [], _ => []
  | s :: rest, pos => mkSect s pos :: buildSects rest (pos + 1)

theorem sectionsLoop_eq (l : List Node) (acc : List Sect) :
    sectionsLoop l acc = acc ++ buildSects l (acc.length + 1) := by
  induction l generalizing acc with
  | nil => simp [sectionsLoop, buildSects]
  | cons s rest ih =>
    rw [sectionsLoop, ih]
    simp [buildSects]

theorem buildSects_length (l : List Node) (p : Nat) :
    (buildSects l p).length = l.length := by
  induction l generalizing p with
  | nil => rfl
  | cons s rest ih => simp [buildSects, ih]

theorem buildSects_getq (l : List Node) (p i : Nat) :
    (buildSects l p)[i]? = (l[i]?).map (fun s => mkSect s (p + i)) := by
  induction l generalizing p i with
  | nil => simp [buildSects]
  | cons s rest ih =>
    cases i with
    | zero => simp [buildSects]
    | succ j =>
      have harith : p + (j + 1) = (p + 1) + j := by omega
      simp [buildSects, harith, ih]

theorem sections_getq (dom : List Node) (i : Nat) :
    (convert_html_to_json dom).sections[i]? =
      ((findAllForest "section" dom)[i]?).map (fun s => mkSect s (i + 1)) := by
  show (sectionsLoop (findAllForest "section" dom) [])[i]? = _
  rw [sectionsLoop_eq, List.nil_append]
  rw [buildSects_getq]
  simp [Nat.add_comm]

theorem sections_length_eq (dom : List Node) :
    (convert_html_to_json dom).sections.length = (findAllForest "section" dom).length := by
  show (sectionsLoop (findAllForest "section" dom) []).length = _
  rw [sectionsLoop_eq, List.nil_append, buildSects_length]

/-- Example textarea element: id f1, explicit field type, pre-filled text. -/
def exTA : Node :=
  Node.element "textarea" [("id", "f1"), ("data-field-type", "TEXTAREA")]
    [Node.text "  normal  "]

/-- Example label associated with the textarea but holding only whitespace. -/
def exLabelWs : Node :=
  Node.element "label" [("for", "f1")] [Node.text "   "]

/-- Example stray label with text, not associated with any textarea. -/
def exLabelStray : Node :=
  Node.element "label" [] [Node.text "Stray"]

/-- Example section 1: explicit name, one textarea plus two labels. -/
def exSec1 : Node :=
  Node.element "section" [("data-section-name", "Findings")]
    [exLabelWs, exLabelStray, exTA]

/-- Example section 2: no attributes, no header, no form elements. -/
def exSec2 : Node :=
  Node.element "section" [] []

/-- Example section 3: empty data-section-name attribute plus a header. -/
def exSec3 : Node :=
  Node.element "section" [("data-section-name", "")]
    [Node.element "header" [] [Node.text " Impressions "]]

/-- Example parsed document with a title, one meta tag and three sections. -/
def exDom : List Node :=
  [Node.element "html" []
    [Node.element "head" []
      [Node.element "title" [] [Node.text "Chest CT"],
       Node.element "meta" [("name", "dcterms.creator"), ("content", "Dr. X")] []],
     Node.element "body" [] [exSec1, exSec2, exSec3]]]

/-- C5: for every input, the extracted Document has exactly one Section per
section element, in source document order: the i-th Section is built from the
i-th section element of the parse (with 1-based position i+1), and within each
Section the questions are built from that section element in source element
order (mkSect traverses textareas respectively labels in document order). -/
theorem c5_sections_in_order (dom : List Node) :
    (convert_html_to_json dom).sections.length = (findAllForest "section" dom).length ∧
    ∀ i : Nat, (convert_html_to_json dom).sections[i]? =
      ((findAllForest "section" dom)[i]?).map (fun s => mkSect s (i + 1)) :=
  ⟨sections_length_eq dom, fun i => sections_getq dom i⟩

/-- C6: for every input, the metadata mapping has exactly the five keys
identifier, language, publisher, date, creator, in that fixed order, and each
value is the content of the first matching meta element when present and
non-empty, else none (the key is never omitted). -/
theorem c6_metadata_fixed_keys (dom : List Node) :
    (convert_html_to_json dom).metadata.map Prod.fst =
      ["identifier", "language", "publisher", "date", "creator"] ∧
    (convert_html_to_json dom).metadata =
      [("identifier", metaValue dom "dcterms.identifier"),
       ("language", metaValue dom "dcterms.language"),
       ("publisher", metaValue dom "dcterms.publisher"),
       ("date", metaValue dom "dcterms.date"),
       ("creator", metaValue dom "dcterms.creator")] :=
  ⟨rfl, rfl⟩

/-- C7: a section element with no data-section-name attribute and no header
descendant is named Section N, where N is one plus the number of sections
already appended when it is processed, which equals its 1-based position among
the section elements in document order. -/
theorem c7_synthesized_name (dom : List Node) (i : Nat) (s : Node)
    (hs : (findAllForest "section" dom)[i]? = some s)
    (hattr : nodeAttr s "data-section-name" = none)
    (hheader : findFirst "header" (nodeChildren s) = none) :
    ((convert_html_to_json dom).sections[i]?).map Sect.name =
      some ("Section " ++ toString (i + 1)) := by
  rw [sections_getq, hs]
  simp [mkSect, resolveSectionName, hattr, fallbackName, hheader]

/-- Witness for C7 on the example document: the second section element has no
attribute and no header, and is named Section 2. -/
theorem c7_witness :
    ((convert_html_to_json exDom).sections[1]?).map Sect.name = some "Section 2" :=
  c7_synthesized_name exDom 1 exSec2 rfl rfl rfl

/-- C10: a section element whose data-section-name attribute is present but
empty is treated as if the attribute were absent: the name falls back to the
trimmed header text, or to the synthesized Section N when no header exists. -/
theorem c10_empty_name_attr (s : Node) (pos : Nat)
    (hattr : nodeAttr s "data-section-name" = some "") :
    resolveSectionName s pos =
      match findFirst "header" (nodeChildren s) with
      | some h => pyStrip (textOfNode h)
      | none => "Section " ++ toString pos := by
  simp [resolveSectionName, hattr, fallbackName]

/-- Witness for C10 on the example document: the third section carries an
empty attribute and resolves to its header text. -/
theorem c10_witness :
    resolveSectionName exSec3 3 =
      (match findFirst "header" (nodeChildren exSec3) with
       | some h => pyStrip (textOfNode h)
       | none => "Section " ++ toString 3) ∧
    resolveSectionName exSec3 3 = "Impressions" :=
  ⟨c10_empty_name_attr exSec3 3 rfl, by rfl⟩

theorem textareaLoop_getq (s : Node) (name : String) (l : List Node) (q0 j : Nat) :
    (textareaLoop s name l q0)[j]? = (l[j]?).map (fun ta => mkTAQuestion s name ta (q0 + j)) := by
  induction l generalizing q0 j with
  | nil => simp [textareaLoop]
  | cons ta rest ih =>
    cases j with
    | zero => simp [textareaLoop]
    | succ k =>
      have harith : q0 + (k + 1) = (q0 + 1) + k := by omega
      simp [textareaLoop, harith, ih]

theorem labelLoop_nil_of_all_ws (ls : List Node) (q : Nat)
    (h : ∀ l ∈ ls, pyStrip (textOfNode l) = "") : labelLoop ls q = [] := by
  induction ls generalizing q with
  | nil => rfl
  | cons l rest ih =>
    have h1 := h l (by simp)
    simp [labelLoop, h1]
    exact ih _ (fun x hx => h x (by simp [hx]))

theorem mkSect_name (s : Node) (pos : Nat) :
    (mkSect s pos).name = resolveSectionName s pos := rfl

theorem mkSect_questions (s : Node) (pos : Nat) :
    (mkSect s pos).questions = sectionQuestions s (resolveSectionName s pos) := rfl

theorem sectionQuestions_ta (s : Node) (name : String) (ta : Node) (rest : List Node)
    (h : findAllForest "textarea" (nodeChildren s) = ta :: rest) :
    sectionQuestions s name = textareaLoop s name (ta :: rest) 0 := by
  unfold sectionQuestions
  rw [h]
  rfl

theorem sectionQuestions_empty (s : Node) (name : String)
    (h : findAllForest "textarea" (nodeChildren s) = [])
    (h2 : labelLoop (findAllForest "label" (nodeChildren s)) 0 = []) :
    sectionQuestions s name =
      [{ id := 0, label := name, answer := "", field_type := "SECTION", element_id := none }] := by
  unfold sectionQuestions
  simp only [h, h2]
  rfl

theorem sectionQuestions_ne_nil (s : Node) (name : String) :
    sectionQuestions s name ≠ [] := by
  cases hEq : findAllForest "textarea" (nodeChildren s) with
  | cons ta rest =>
    rw [sectionQuestions_ta s name ta rest hEq]
    simp [textareaLoop]
  | nil =>
    cases hl : labelLoop (findAllForest "label" (nodeChildren s)) 0 with
    | nil =>
      rw [sectionQuestions_empty s name hEq hl]
      simp
    | cons q qs =>
      have hqs : sectionQuestions s name = q :: qs := by
        unfold sectionQuestions
        simp only [hEq, hl, List.isEmpty_cons, Bool.false_eq_true, if_false]
      rw [hqs]
      simp

theorem mem_buildSects (sec : Sect) (l : List Node) (p : Nat)
    (h : sec ∈ buildSects l p) : ∃ s pos, sec = mkSect s pos := by
  induction l generalizing p with
  | nil => simp [buildSects] at h
  | cons s rest ih =>
    simp only [buildSects, List.mem_cons] at h
    rcases h with h | h
    · exact ⟨s, p, h⟩
    · exact ih _ h

theorem answer_ite (t : String) : (if t ≠ "" then pyStrip t else "") = pyStrip t := by
  by_cases h : t = ""
  · subst h; rfl
  · simp [h]

/-- C2: a section element containing at least one textarea yields only
textarea-derived questions: the questions of the corresponding Section are
exactly the textarea loop over the textareas of that section element, so the
label elements of the section contribute no questions of their own. -/
theorem c2_textarea_priority (dom : List Node) (i : Nat) (s : Node)
    (hs : (findAllForest "section" dom)[i]? = some s)
    (hta : findAllForest "textarea" (nodeChildren s) ≠ []) :
    ((convert_html_to_json dom).sections[i]?).map Sect.questions =
      some (textareaLoop s (resolveSectionName s (i + 1))
        (findAllForest "textarea" (nodeChildren s)) 0) := by
  cases h : findAllForest "textarea" (nodeChildren s) with
  | nil => exact absurd h hta
  | cons ta rest =>
    rw [sections_getq, hs]
    simp only [Option.map_some', mkSect_questions]
    rw [sectionQuestions_ta s _ ta rest h]

/-- Witness for C2 on the example document: the first section has a textarea
and two labels, and its questions are the textarea loop output only. -/
theorem c2_witness :
    findAllForest "textarea" (nodeChildren exSec1) ≠ [] ∧
    ((convert_html_to_json exDom).sections[0]?).map Sect.questions =
      some (textareaLoop exSec1 (resolveSectionName exSec1 1)
        (findAllForest "textarea" (nodeChildren exSec1)) 0) :=
  ⟨by show ([exTA] : List Node) ≠ []; simp,
   c2_textarea_priority exDom 0 exSec1 rfl (by show ([exTA] : List Node) ≠ []; simp)⟩

/-- C3: a section element with no textarea and no label with non-empty
stripped text yields exactly one question with field_type SECTION, id 0,
empty answer and the resolved section name as label; and consequently every
Section in every extracted Document has at least one Question. -/
theorem c3_section_placeholder :
    (∀ (dom : List Node) (i : Nat) (s : Node),
      (findAllForest "section" dom)[i]? = some s →
      findAllForest "textarea" (nodeChildren s) = [] →
      (∀ l ∈ findAllForest "label" (nodeChildren s), pyStrip (textOfNode l) = "") →
      ((convert_html_to_json dom).sections[i]?).map Sect.questions =
        some [{ id := 0, label := resolveSectionName s (i + 1), answer := "",
                field_type := "SECTION", element_id := none }]) ∧
    (∀ (dom : List Node) (sec : Sect),
      sec ∈ (convert_html_to_json dom).sections → sec.questions ≠ []) := by
  constructor
  · intro dom i s hs hta hlab
    rw [sections_getq, hs]
    simp only [Option.map_some', mkSect_questions]
    rw [sectionQuestions_empty s _ hta (labelLoop_nil_of_all_ws _ 0 hlab)]
  · intro dom sec hmem
    have hsec : (convert_html_to_json dom).sections =
        buildSects (findAllForest "section" dom) 1 := by
      show sectionsLoop (findAllForest "section" dom) [] = _
      rw [sectionsLoop_eq]
      simp
    rw [hsec] at hmem
    obtain ⟨s, pos, rfl⟩ := mem_buildSects sec _ _ hmem
    exact sectionQuestions_ne_nil s (resolveSectionName s pos)

/-- Witness for C3 on the example document: the empty second section gets the
single SECTION placeholder question. -/
theorem c3_witness :
    ((convert_html_to_json exDom).sections[1]?).map Sect.questions =
      some [{ id := 0, label := resolveSectionName exSec2 2, answer := "",
              field_type := "SECTION", element_id := none }] :=
  c3_section_placeholder.1 exDom 1 exSec2 rfl rfl (fun _ hl => nomatch hl)

/-- C4: the j-th textarea of a section element yields the j-th question of the
corresponding Section, with label the stripped text of the first label whose
for attribute equals the textarea's id when that label exists and has
non-empty stripped text, else the section's resolved name; answer the
stripped pre-filled text; field_type the data-field-type attribute, default
TEXTAREA; and element_id the textarea's id (empty string when absent). -/
theorem c4_textarea_question (dom : List Node) (i j : Nat) (s ta : Node)
    (hs : (findAllForest "section" dom)[i]? = some s)
    (htaj : (findAllForest "textarea" (nodeChildren s))[j]? = some ta) :
    ((convert_html_to_json dom).sections[i]?).bind (fun sec => sec.questions[j]?) =
      some { id := j
             label := match findLabelFor s ((nodeAttr ta "id").getD "") with
                      | some l => if pyStrip (textOfNode l) ≠ "" then pyStrip (textOfNode l)
                                  else resolveSectionName s (i + 1)
                      | none => resolveSectionName s (i + 1)
             answer := pyStrip (textOfNode ta)
             field_type := (nodeAttr ta "data-field-type").getD "TEXTAREA"
             element_id := some ((nodeAttr ta "id").getD "") } := by
  have hne : findAllForest "textarea" (nodeChildren s) ≠ [] := by
    intro h0
    rw [h0] at htaj
    simp at htaj
  cases h : findAllForest "textarea" (nodeChildren s) with
  | nil => exact absurd h hne
  | cons ta0 rest =>
    rw [h] at htaj
    rw [sections_getq, hs]
    simp only [Option.map_some', Option.some_bind, mkSect_questions]
    rw [sectionQuestions_ta s _ ta0 rest h, textareaLoop_getq, htaj]
    simp only [Option.map_some', Option.some.injEq]
    simp only [mkTAQuestion, Nat.zero_add, answer_ite]

/-- Witness for C4 on the example document: the textarea of the first section,
whose associated label holds only whitespace, falls back to the section name
and carries the stripped pre-filled text, the explicit field type and its id. -/
theorem c4_witness :
    ((convert_html_to_json exDom).sections[0]?).bind (fun sec => sec.questions[0]?) =
      some { id := 0, label := "Findings", answer := "normal",
             field_type := "TEXTAREA", element_id := some "f1" } :=
  c4_textarea_question exDom 0 0 exSec1 exTA rfl rfl

/-- Replacement loop for Python str.replace with a non-empty pattern:
left-to-right, non-overlapping.  Fuel bounded by the input length so the
definition is structural and computes by rfl; the converters only call
replace with non-empty patterns. -/
def listReplaceFuel : Nat → List Char → List Char → List Char → List Char
  | 0, _, _, l => l
  | _, _, _, [] => []
  | fuel + 1, pat, repl, c :: cs =>
    if pat.isPrefixOf (c :: cs) then
      repl ++ listReplaceFuel fuel pat repl ((c :: cs).drop pat.length)
    else c :: listReplaceFuel fuel pat repl cs

/-- Python str.replace(pat, repl) for non-empty pat. -/
def pyReplace (s pat repl : String) : String :=
  String.mk (listReplaceFuel (s.data.length + 1) pat.data repl.data s.data)

/-- Python str.endswith. -/
def pyEndsWith (s suf : String) : Bool := suf.data.isSuffixOf s.data

/-- Python str.title() over the character list: the first character of each
run of letters is uppercased, later ones lowercased (ASCII model). -/
def pyTitleAux : Bool → List Char → List Char
  | _, [] => []
  | prev, c :: cs =>
    if c.isAlpha then
      (if prev then c.toLower else c.toUpper) :: pyTitleAux true cs
    else c :: pyTitleAux false cs

/-- Python str.title() on a string. -/
def pyTitle (s : String) : String := String.mk (pyTitleAux false s.data)

/-- One textarea-derived question as built by
src/radreportconverter/converter.py (lines 78-102).  It differs from the
fastapi variant in the fallback label: section_name or, when that is falsy
(empty), the textarea id with Text removed, underscores to spaces, then
title-cased. -/
def mkTAQuestionRad (s : Node) (name : String) (ta : Node) (qid : Nat) : Question :=
  let taId := (nodeAttr ta "id").getD ""
  let fb := if name ≠ "" then name
            else pyTitle (pyReplace (pyReplace taId "Text" "") "_" " ")
  let labelText :=
    match findLabelFor s taId with
    | some l => if pyStrip (textOfNode l) ≠ "" then pyStrip (textOfNode l) else fb
    | none => fb
  { id := qid
    label := labelText
    answer := if textOfNode ta ≠ "" then pyStrip (textOfNode ta) else ""
    field_type := (nodeAttr ta "data-field-type").getD "TEXTAREA"
    element_id := some taId }

/-- Textarea loop of converter.py (lines 76-102). -/
def textareaLoopRad (s : Node) (name : String) : List Node → Nat → List Question
  | [], _ => []
  | ta :: rest, qid => mkTAQuestionRad s name ta qid :: textareaLoopRad s name rest (qid + 1)

/-- Questions of one section per converter.py (lines 72-126): same three-way
strategy as the fastapi variant. -/
def sectionQuestionsRad (s : Node) (name : String) : List Question :=
  let qs :=
    match findAllForest "textarea" (nodeChildren s) with
    | [] => labelLoop (findAllForest "label" (nodeChildren s)) 0
    | ta :: rest => textareaLoopRad s name (ta :: rest) 0
  if qs.isEmpty then
    [{ id := 0, label := name, answer := "", field_type := "SECTION", element_id := none }]
  else qs

/-- One extracted section per converter.py. -/
def mkSectRad (s : Node) (pos : Nat) : Sect :=
  let name := resolveSectionName s pos
  { name := name, questions := sectionQuestionsRad s name }

/-- Section loop of converter.py (lines 59-128). -/
def sectionsLoopRad : List Node → List Sect → List Sect
  | [], acc => acc
  | s :: rest, acc => sectionsLoopRad rest (acc ++ [mkSectRad s (acc.length + 1)])

/-- Extraction part of src/radreportconverter/converter.py convert_html_to_json
(lines 38-138), from the parsed DOM forest. -/
def convertRad (dom : List Node) : Doc :=
  { title := docTitle dom
    metadata := meta_fields.map (fun kv => (kv.1, metaValue dom kv.2))
    sections := sectionsLoopRad (findAllForest "section" dom) [] }

/-- File-content stage of src/radreportconverter/converter.py
convert_html_to_json (lines 33-138): content is the text read from the file
and dom its parse.  Lines 33-34 raise ValueError when the content is empty or
whitespace-only; otherwise extraction proceeds and always succeeds. -/
def convert_file_rad (content : String) (dom : List Node) : Except String Doc :=
  if content = "" ∨ pyStrip content = "" then
    Except.error "The file appears to be empty"
  else Except.ok (convertRad dom)

/-- Success test for an Except value. -/
def exOk : Except String Doc → Bool
  | Except.ok _ => true
  | Except.error _ => false

/-- C1 counterexample: the claim says every empty or whitespace-only input is
rejected with an invalid-input error and no Document is produced, for the
extractor as such.  The pure extractor of fastapi_converter.py (lines 8-93)
performs no empty-input check: on empty input, whose parse is the empty
forest, it returns a complete Document (default title, all-null metadata,
no sections) instead of rejecting. -/
theorem c1_counterexample :
    convert_html_to_json [] =
      { title := "Untitled Document"
        metadata := [("identifier", none), ("language", none), ("publisher", none),
                     ("date", none), ("creator", none)]
        sections := [] } := rfl

/-- C1 as amended: the file-based converter (converter.py lines 33-34) rejects
empty or whitespace-only file content with a ValueError and that check is its
only extraction-time failure: conversion succeeds on every other content.
The fastapi extractor performs no such check (see the counterexample). -/
theorem c1_amended (content : String) (dom : List Node) :
    exOk (convert_file_rad content dom) = !(pyStrip content == "") ∧
    (pyStrip content = "" →
      convert_file_rad content dom = Except.error "The file appears to be empty") := by
  constructor
  · by_cases h : content = ""
    · subst h
      rfl
    · by_cases h2 : pyStrip content = ""
      · rw [convert_file_rad, if_pos (Or.inr h2), h2]
        rfl
      · rw [convert_file_rad, if_neg (by tauto)]
        simp [exOk, h2]
  · intro h2
    rw [convert_file_rad, if_pos (Or.inr h2)]

/-- Witness for the amended C1: empty and whitespace-only contents fail with
the invalid-input error, non-blank content converts successfully. -/
theorem c1_witness :
    exOk (convert_file_rad "" []) = false ∧
    convert_file_rad "   " [] = Except.error "The file appears to be empty" ∧
    exOk (convert_file_rad "<p>x</p>" [Node.text "x"]) = true := by
  refine ⟨?_, (c1_amended "   " []).2 rfl, ?_⟩
  · rw [(c1_amended "" []).1]
    rfl
  · rw [(c1_amended "<p>x</p>" [Node.text "x"]).1]
    rfl

/-- A file in the batch directory: name, text content, and the parse of that
content (parsing happens outside the core; the association is supplied). -/
structure FileEntry where
  name : String
  content : String
  dom : List Node

/-- Directory lookup by file name (os.path.exists plus open). -/
def findFile (files : List FileEntry) (nm : String) : Option FileEntry :=
  (files.filter (fun f => f.name == nm)).head?

/-- converter.py convert_html_to_json (lines 5-138) as called by the batch
driver: FileNotFoundError when the file is absent, then the empty-content
check and the extraction. -/
def convert_html_file_rad (files : List FileEntry) (fname : String) : Except String Doc :=
  match findFile files fname with
  | none => Except.error "FileNotFoundError"
  | some f => convert_file_rad f.content f.dom

/-- converter.py save_json_output (lines 140-210).  Its body is an orphaned
copy of analyze_html_structure: when the file named by its second argument
(the output .json name) does not exist it returns an analysis error dict at
line 154 without writing anything and without raising; when that file exists,
the copied analysis completes and line 204 references the undefined name
output_filename, raising NameError.  The writing code at lines 204-210 is
unreachable, so no call ever writes a file. -/
def save_json_output_rad (files : List FileEntry) (outName : String) :
    Except String Unit :=
  match findFile files outName with
  | none => Except.ok ()
  | some _ => Except.error "NameError: name output_filename is not defined"

/-- Outcome of one batch run: the success and failure counters of
convert_all_html_files and the list of output files the run wrote (name and
serialized content; the json.dump at lines 207-208 would append here, but it
is unreachable in save_json_output). -/
structure BatchState where
  successes : Nat
  failures : Nat
  written : List (String × String)
deriving Repr, DecidableEq

/-- One iteration of the batch loop of converter.py convert_all_html_files
(lines 246-281): convert the file, then save under the sibling name obtained
by replacing .html with .json; any exception is caught and counted as a
failure of that file only. -/
def batchStepRad (files : List FileEntry) (st : BatchState) (fname : String) : BatchState :=
  match convert_html_file_rad files fname with
  | Except.error _ => { st with failures := st.failures + 1 }
  | Except.ok _ =>
    match save_json_output_rad files (pyReplace fname ".html" ".json") with
    | Except.error _ => { st with failures := st.failures + 1 }
    | Except.ok _ => { st with successes := st.successes + 1 }

/-- converter.py convert_all_html_files (lines 212-296): the files with a
.html name are processed in order, one batch step each. -/
def convert_all_html_files_rad (files : List FileEntry) : BatchState :=
  (files.filter (fun f => pyEndsWith f.name ".html")).foldl
    (fun st f => batchStepRad files st f.name)
    { successes := 0, failures := 0, written := [] }

theorem batchStepRad_written (files : List FileEntry) (st : BatchState) (fname : String) :
    (batchStepRad files st fname).written = st.written := by
  unfold batchStepRad
  cases convert_html_file_rad files fname with
  | error e => rfl
  | ok d =>
    cases save_json_output_rad files (pyReplace fname ".html" ".json") with
    | error e => rfl
    | ok u => rfl

theorem batchFold_written (files : List FileEntry) (l : List FileEntry) (st : BatchState) :
    (l.foldl (fun st f => batchStepRad files st f.name) st).written = st.written := by
  induction l generalizing st with
  | nil => rfl
  | cons f rest ih => rw [List.foldl_cons, ih, batchStepRad_written]

/-- Example content of a valid, non-empty HTML file whose parse is exDom. -/
def exContent : String := "<html><head><title>Chest CT</title></head></html>"

/-- C8 (code bug): the claim says each .html file's result is written as
indented JSON to a sibling .json file.  The batch driver of
radreportconverter/converter.py can never write: save_json_output's body is
an orphaned copy of analyze_html_structure, so the written list of every run
is empty; and on a fresh directory holding one valid HTML file the run even
reports one success while writing nothing (save_json_output returns its
early file-not-found error dict, which the caller ignores). -/
theorem c8_batch_never_writes :
    (∀ files : List FileEntry, (convert_all_html_files_rad files).written = []) ∧
    convert_all_html_files_rad
        [{ name := "report.html", content := exContent, dom := exDom }] =
      { successes := 1, failures := 0, written := [] } := by
  constructor
  · intro files
    unfold convert_all_html_files_rad
    rw [batchFold_written]
  · rfl

/-- JSON value tree: the shape of the Python values passed to json.dump
(dicts preserve insertion order, so objects carry ordered key lists; the only
numbers in a Document are the natural question ids). -/
inductive Json where
  | null
  | num (n : Nat)
  | str (s : String)
  | arr (xs : List Json)
  | obj (kvs : List (String × Json))

/-- JSON value of one metadata entry: the string, or null for absent. -/
def optStrToJson : Option String → Json
  | some s => Json.str s
  | none => Json.null

/-- JSON object of a question dict, keys in insertion order (converter
sources build id, label, answer, field_type, then element_id only for
textarea questions). -/
def questionToJson (q : Question) : Json :=
  Json.obj
    ([("id", Json.num q.id), ("label", Json.str q.label),
      ("answer", Json.str q.answer), ("field_type", Json.str q.field_type)] ++
      (match q.element_id with
       | some e => [("element_id", Json.str e)]
       | none => []))

/-- JSON object of a section dict. -/
def sectToJson (s : Sect) : Json :=
  Json.obj [("name", Json.str s.name),
            ("questions", Json.arr (s.questions.map questionToJson))]

/-- JSON object of the whole Document, as json.dump receives it. -/
def docToJson (d : Doc) : Json :=
  Json.obj [("title", Json.str d.title),
            ("metadata", Json.obj (d.metadata.map (fun kv => (kv.1, optStrToJson kv.2)))),
            ("sections", Json.arr (d.sections.map sectToJson))]

/-- Decode one metadata value: null or a string. -/
def jsonToOptStr : Json → Option (Option String)
  | Json.null => some none
  | Json.str s => some (some s)
  | _ => none

/-- Decode one metadata entry. -/
def jsonMetaEntry (kv : String × Json) : Option (String × Option String) :=
  (jsonToOptStr kv.2).map (fun o => (kv.1, o))

/-- Decode a question object back to a Question; the element_id key may be
absent (LABEL and SECTION questions) or present (textarea questions). -/
def jsonToQuestion : Json → Option Question
  | Json.obj [("id", Json.num i), ("label", Json.str l),
              ("answer", Json.str a), ("field_type", Json.str f)] =>
    some { id := i, label := l, answer := a, field_type := f, element_id := none }
  | Json.obj [("id", Json.num i), ("label", Json.str l),
              ("answer", Json.str a), ("field_type", Json.str f),
              ("element_id", Json.str e)] =>
    some { id := i, label := l, answer := a, field_type := f, element_id := some e }
  | _ => none

/-- Decode a list elementwise, failing when any element fails. -/
def decodeEach {A B : Type} (g : A → Option B) : List A → Option (List B)
  | [] => some []
  | a :: rest =>
    match g a, decodeEach g rest with
    | some b, some bs => some (b :: bs)
    | _, _ => none

/-- Decode a section object back to a Sect. -/
def jsonToSect : Json → Option Sect
  | Json.obj [("name", Json.str n), ("questions", Json.arr qs)] =>
    match decodeEach jsonToQuestion qs with
    | some ql => some { name := n, questions := ql }
    | none => none
  | _ => none

/-- Decode a document object back to a Doc: structural parsing of the
persisted shape. -/
def jsonToDoc : Json → Option Doc
  | Json.obj [("title", Json.str t), ("metadata", Json.obj mkvs),
              ("sections", Json.arr ss)] =>
    match decodeEach jsonMetaEntry mkvs, decodeEach jsonToSect ss with
    | some md, some secs => some { title := t, metadata := md, sections := secs }
    | _, _ => none
  | _ => none

/-- Hexadecimal digit character (lowercase, as json.dumps emits). -/
def hexDigitChar (n : Nat) : Char :=
  Char.ofNat (if n < 10 then 48 + n else 87 + n)

/-- Escape of one character in a JSON string literal, as json.dumps with
ensure_ascii=False performs it: quote, backslash and the named control
escapes, a u-escape for other control characters, every other character
(non-ASCII included) passed through raw. -/
def escapeChar (c : Char) : List Char :=
  if c = '\"' then ['\\', '\"']
  else if c = '\\' then ['\\', '\\']
  else if c = '\n' then ['\\', 'n']
  else if c = '\t' then ['\\', 't']
  else if c = '\r' then ['\\', 'r']
  else if c.toNat = 8 then ['\\', 'b']
  else if c.toNat = 12 then ['\\', 'f']
  else if c.toNat < 32 then
    ['\\', 'u', '0', '0', hexDigitChar (c.toNat / 16), hexDigitChar (c.toNat % 16)]
  else [c]

/-- Escape of a character list. -/
def escapeList : List Char → List Char
  | [] => []
  | c :: cs => escapeChar c ++ escapeList cs

/-- Rendered JSON string literal. -/
def renderString (s : List Char) : List Char :=
  '\"' :: (escapeList s ++ ['\"'])

/-- Decimal rendering of a natural number, most significant digit first. -/
def toDecimal (n : Nat) : List Char :=
  if n < 10 then [Char.ofNat (48 + n)]
  else toDecimal (n / 10) ++ [Char.ofNat (48 + n % 10)]
termination_by n
decreasing_by exact Nat.div_lt_self (by omega) (by omega)

/-- Indentation issued by json.dump with indent=2 at nesting level i. -/
def pad (i : Nat) : List Char := List.replicate (2 * i) ' '

mutual
/-- Rendering of a JSON value at nesting level i, following json.dumps with
indent=2 and separators (the comma and colon-space defaults under indent):
empty containers render inline, non-empty ones put each item on its own line
at the next indent level and the closing bracket at the current level. -/
def renderV : Json → Nat → List Char
  | Json.null, _ => ['n', 'u', 'l', 'l']
  | Json.num n, _ => toDecimal n
  | Json.str s, _ => renderString s.data
  | Json.arr xs, i =>
    match xs with
    | [] => ['[', ']']
    | x :: rest =>
      '[' :: '\n' :: (renderArrItems (x :: rest) (i + 1) ++ ('\n' :: pad i ++ [']']))
  | Json.obj kvs, i =>
    match kvs with
    | [] => ['{', '}']
    | kv :: rest =>
      '{' :: '\n' :: (renderObjItems (kv :: rest) (i + 1) ++ ('\n' :: pad i ++ ['}']))
/-- Rendering of the comma-newline separated items of a non-empty array. -/
def renderArrItems : List Json → Nat → List Char
  | [], _ => []
  | [x], i => pad i ++ renderV x i
  | x :: y :: rest, i =>
    pad i ++ renderV x i ++ (',' :: '\n' :: renderArrItems (y :: rest) i)
/-- Rendering of the comma-newline separated entries of a non-empty object. -/
def renderObjItems : List (String × Json) → Nat → List Char
  | [], _ => []
  | [(k, v)], i => pad i ++ renderString k.data ++ (':' :: ' ' :: renderV v i)
  | (k, v) :: kv :: rest, i =>
    pad i ++ renderString k.data ++ (':' :: ' ' :: renderV v i) ++
      (',' :: '\n' :: renderObjItems (kv :: rest) i)
end

/-- JSON whitespace characters accepted between tokens by json.load. -/
def isWs (c : Char) : Bool :=
  (c == ' ') || (c == '\n') || (c == '\t') || (c == '\r')

/-- Skip leading whitespace. -/
def skipWs : List Char → List Char
  | [] => []
  | c :: cs => if isWs c then skipWs cs else c :: cs

/-- Numeric value of a hexadecimal digit character. -/
def hexVal (c : Char) : Nat :=
  if c.toNat ≤ 57 then c.toNat - 48
  else if c.toNat ≤ 70 then c.toNat - 55
  else c.toNat - 87

/-- Prepend a character to the string part of a string-parse result. -/
def consFst (c : Char) : Option (List Char × List Char) → Option (List Char × List Char)
  | some (s, r) => some (c :: s, r)
  | none => none

/-- Parse the body of a JSON string literal after the opening quote, up to and
including the closing quote: raw characters, the named escapes and u-escapes,
returning the decoded characters and the rest of the input. -/
def parseStringBody : List Char → Option (List Char × List Char)
  | [] => none
  | c :: cs =>
    if c = '\"' then some ([], cs)
    else if c = '\\' then
      match cs with
      | [] => none
      | e :: cs2 =>
        if e = '\"' then consFst '\"' (parseStringBody cs2)
        else if e = '\\' then consFst '\\' (parseStringBody cs2)
        else if e = 'n' then consFst '\n' (parseStringBody cs2)
        else if e = 't' then consFst '\t' (parseStringBody cs2)
        else if e = 'r' then consFst '\r' (parseStringBody cs2)
        else if e = 'b' then consFst (Char.ofNat 8) (parseStringBody cs2)
        else if e = 'f' then consFst (Char.ofNat 12) (parseStringBody cs2)
        else if e = 'u' then
          match cs2 with
          | h1 :: h2 :: h3 :: h4 :: cs3 =>
            consFst
              (Char.ofNat (hexVal h1 * 4096 + hexVal h2 * 256 + hexVal h3 * 16 + hexVal h4))
              (parseStringBody cs3)
          | _ => none
        else none
    else consFst c (parseStringBody cs)

/-- Parse a run of decimal digits into an accumulator. -/
def parseDigits : Nat → List Char → Nat × List Char
  | acc, [] => (acc, [])
  | acc, c :: cs =>
    if c.isDigit then parseDigits (acc * 10 + (c.toNat - 48)) cs
    else (acc, c :: cs)

mutual
/-- Recursive-descent parse of one JSON value, whitespace-insensitive, fuel
decreasing on nesting and on items.  Inverts renderV on its output. -/
def parseValue : Nat → List Char → Option (Json × List Char)
  | 0, _ => none
  | fuel + 1, l =>
    match skipWs l with
    | [] => none
    | c :: rest =>
      if c = '\"' then
        match parseStringBody rest with
        | some (cs, r) => some (Json.str (String.mk cs), r)
        | none => none
      else if c = 'n' then
        match rest with
        | 'u' :: 'l' :: 'l' :: r => some (Json.null, r)
        | _ => none
      else if c = '{' then
        match parseObjItems fuel (skipWs rest) with
        | some (kvs, r2) => some (Json.obj kvs, r2)
        | none =>
          match skipWs rest with
          | '}' :: r => some (Json.obj [], r)
          | _ => none
      else if c = '[' then
        match parseArrItems fuel (skipWs rest) with
        | some (vs, r2) => some (Json.arr vs, r2)
        | none =>
          match skipWs rest with
          | ']' :: r => some (Json.arr [], r)
          | _ => none
      else if c.isDigit then
        match parseDigits (c.toNat - 48) rest with
        | (n, r) => some (Json.num n, r)
      else none
/-- Parse the remaining entries of a non-empty object, consuming the closing
brace. -/
def parseObjItems : Nat → List Char → Option (List (String × Json) × List Char)
  | 0, _ => none
  | fuel + 1, l =>
    match skipWs l with
    | '\"' :: rest =>
      match parseStringBody rest with
      | some (k, r1) =>
        match skipWs r1 with
        | ':' :: r2 =>
          match parseValue fuel r2 with
          | some (v, r3) =>
            match skipWs r3 with
            | ',' :: r4 =>
              match parseObjItems fuel r4 with
              | some (kvs, r5) => some ((String.mk k, v) :: kvs, r5)
              | none => none
            | '}' :: r4 => some ([(String.mk k, v)], r4)
            | _ => none
          | none => none
        | _ => none
      | none => none
    | _ => none
/-- Parse the remaining items of a non-empty array, consuming the closing
bracket. -/
def parseArrItems : Nat → List Char → Option (List Json × List Char)
  | 0, _ => none
  | fuel + 1, l =>
    match parseValue fuel l with
    | some (v, r1) =>
      match skipWs r1 with
      | ',' :: r2 =>
        match parseArrItems fuel r2 with
        | some (vs, r3) => some (v :: vs, r3)
        | none => none
      | ']' :: r2 => some ([v], r2)
      | _ => none
    | none => none
end

mutual
/-- Fuel sufficient for parseValue to parse a rendered value. -/
def fuelV : Json → Nat
  | Json.null => 1
  | Json.num _ => 1
  | Json.str _ => 1
  | Json.arr xs => 1 + fuelItemsA xs
  | Json.obj kvs => 1 + fuelItemsO kvs
/-- Fuel sufficient for parseArrItems on rendered items. -/
def fuelItemsA : List Json → Nat
  | [] => 0
  | x :: rest => 1 + max (fuelV x) (fuelItemsA rest)
/-- Fuel sufficient for parseObjItems on rendered entries. -/
def fuelItemsO : List (String × Json) → Nat
  | [] => 0
  | kv :: rest => 1 + max (fuelV kv.2) (fuelItemsO rest)
end

theorem skipWs_cons_ws (c : Char) (l : List Char) (h : isWs c = true) :
    skipWs (c :: l) = skipWs l := by
  simp [skipWs, h]

theorem skipWs_cons_not (c : Char) (l : List Char) (h : isWs c = false) :
    skipWs (c :: l) = c :: l := by
  simp [skipWs, h]

theorem skipWs_replicate (n : Nat) (l : List Char) :
    skipWs (List.replicate n ' ' ++ l) = skipWs l := by
  induction n with
  | zero => rfl
  | succ k ih => simpa [List.replicate_succ, skipWs, isWs] using ih

theorem skipWs_pad (i : Nat) (l : List Char) : skipWs (pad i ++ l) = skipWs l :=
  skipWs_replicate (2 * i) l

theorem skipWs_idem (l : List Char) : skipWs (skipWs l) = skipWs l := by
  induction l with
  | nil => rfl
  | cons c cs ih =>
    by_cases h : isWs c = true
    · rw [skipWs_cons_ws c cs h, ih]
    · rw [skipWs_cons_not c cs (by simpa using h), skipWs_cons_not c cs (by simpa using h)]

theorem parseValue_skipWs (fuel : Nat) (l : List Char) :
    parseValue fuel (skipWs l) = parseValue fuel l := by
  cases fuel with
  | zero => rfl
  | succ f =>
    show parseValue (f + 1) (skipWs l) = parseValue (f + 1) l
    rw [parseValue, parseValue, skipWs_idem]

theorem parseArrItems_skipWs (fuel : Nat) (l : List Char) :
    parseArrItems fuel (skipWs l) = parseArrItems fuel l := by
  cases fuel with
  | zero => rfl
  | succ f =>
    show parseArrItems (f + 1) (skipWs l) = parseArrItems (f + 1) l
    rw [parseArrItems, parseArrItems, parseValue_skipWs]

theorem parseObjItems_skipWs (fuel : Nat) (l : List Char) :
    parseObjItems fuel (skipWs l) = parseObjItems fuel l := by
  cases fuel with
  | zero => rfl
  | succ f =>
    show parseObjItems (f + 1) (skipWs l) = parseObjItems (f + 1) l
    rw [parseObjItems, parseObjItems, skipWs_idem]

theorem hexVal_hexDigitChar : ∀ n : Nat, n < 16 → hexVal (hexDigitChar n) = n := by
  decide

theorem decimal_digit_facts : ∀ d : Nat, d < 10 →
    (Char.ofNat (48 + d)).isDigit = true ∧ (Char.ofNat (48 + d)).toNat = 48 + d ∧
    isWs (Char.ofNat (48 + d)) = false ∧ Char.ofNat (48 + d) ≠ '\"' ∧
    Char.ofNat (48 + d) ≠ 'n' ∧ Char.ofNat (48 + d) ≠ '{' ∧
    Char.ofNat (48 + d) ≠ '[' ∧ Char.ofNat (48 + d) ≠ ']' ∧
    Char.ofNat (48 + d) ≠ '}' ∧ Char.ofNat (48 + d) ≠ ',' := by
  decide

theorem psb_quote (l : List Char) : parseStringBody ('\"' :: l) = some ([], l) := by
  rw [parseStringBody.eq_def]
  simp

theorem psb_raw (c : Char) (l : List Char) (h1 : c ≠ '\"') (h2 : c ≠ '\\') :
    parseStringBody (c :: l) = consFst c (parseStringBody l) := by
  rw [parseStringBody.eq_def]
  simp [h1, h2]

theorem psb_esc_quote (l : List Char) :
    parseStringBody ('\\' :: '\"' :: l) = consFst '\"' (parseStringBody l) := by
  rw [parseStringBody.eq_def]
  simp

theorem psb_esc_backslash (l : List Char) :
    parseStringBody ('\\' :: '\\' :: l) = consFst '\\' (parseStringBody l) := by
  rw [parseStringBody.eq_def]
  simp

theorem psb_esc_n (l : List Char) :
    parseStringBody ('\\' :: 'n' :: l) = consFst '\n' (parseStringBody l) := by
  rw [parseStringBody.eq_def]
  simp

theorem psb_esc_t (l : List Char) :
    parseStringBody ('\\' :: 't' :: l) = consFst '\t' (parseStringBody l) := by
  rw [parseStringBody.eq_def]
  simp

theorem psb_esc_r (l : List Char) :
    parseStringBody ('\\' :: 'r' :: l) = consFst '\r' (parseStringBody l) := by
  rw [parseStringBody.eq_def]
  simp

theorem psb_esc_b (l : List Char) :
    parseStringBody ('\\' :: 'b' :: l) = consFst (Char.ofNat 8) (parseStringBody l) := by
  rw [parseStringBody.eq_def]
  simp

theorem psb_esc_f (l : List Char) :
    parseStringBody ('\\' :: 'f' :: l) = consFst (Char.ofNat 12) (parseStringBody l) := by
  rw [parseStringBody.eq_def]
  simp

theorem psb_esc_u (h1 h2 h3 h4 : Char) (l : List Char) :
    parseStringBody ('\\' :: 'u' :: h1 :: h2 :: h3 :: h4 :: l) =
      consFst (Char.ofNat (hexVal h1 * 4096 + hexVal h2 * 256 + hexVal h3 * 16 + hexVal h4))
        (parseStringBody l) := by
  rw [parseStringBody.eq_def]
  simp

theorem parseStringBody_escape (s : List Char) (rest : List Char) :
    parseStringBody (escapeList s ++ ('\"' :: rest)) = some (s, rest) := by
  induction s with
  | nil => exact psb_quote rest
  | cons c cs ih =>
    show parseStringBody ((escapeChar c ++ escapeList cs) ++ ('\"' :: rest)) = _
    rw [List.append_assoc]
    by_cases h1 : c = '\"'
    · subst h1
      rw [show escapeChar '\"' = ['\\', '\"'] from rfl]
      show parseStringBody ('\\' :: '\"' :: (escapeList cs ++ ('\"' :: rest))) = _
      rw [psb_esc_quote, ih]
      rfl
    · by_cases h2 : c = '\\'
      · subst h2
        rw [show escapeChar '\\' = ['\\', '\\'] from rfl]
        show parseStringBody ('\\' :: '\\' :: (escapeList cs ++ ('\"' :: rest))) = _
        rw [psb_esc_backslash, ih]
        rfl
      · by_cases h3 : c = '\n'
        · subst h3
          rw [show escapeChar '\n' = ['\\', 'n'] from rfl]
          show parseStringBody ('\\' :: 'n' :: (escapeList cs ++ ('\"' :: rest))) = _
          rw [psb_esc_n, ih]
          rfl
        · by_cases h4 : c = '\t'
          · subst h4
            rw [show escapeChar '\t' = ['\\', 't'] from rfl]
            show parseStringBody ('\\' :: 't' :: (escapeList cs ++ ('\"' :: rest))) = _
            rw [psb_esc_t, ih]
            rfl
          · by_cases h5 : c = '\r'
            · subst h5
              rw [show escapeChar '\r' = ['\\', 'r'] from rfl]
              show parseStringBody ('\\' :: 'r' :: (escapeList cs ++ ('\"' :: rest))) = _
              rw [psb_esc_r, ih]
              rfl
            · by_cases h6 : c.toNat = 8
              · rw [escapeChar, if_neg h1, if_neg h2, if_neg h3, if_neg h4, if_neg h5,
                    if_pos h6]
                show parseStringBody ('\\' :: 'b' :: (escapeList cs ++ ('\"' :: rest))) = _
                rw [psb_esc_b, ih]
                have hc : Char.ofNat 8 = c := by
                  rw [← h6, Char.ofNat_toNat]
                rw [hc]
                rfl
              · by_cases h7 : c.toNat = 12
                · rw [escapeChar, if_neg h1, if_neg h2, if_neg h3, if_neg h4, if_neg h5,
                      if_neg h6, if_pos h7]
                  show parseStringBody ('\\' :: 'f' :: (escapeList cs ++ ('\"' :: rest))) = _
                  rw [psb_esc_f, ih]
                  have hc : Char.ofNat 12 = c := by
                    rw [← h7, Char.ofNat_toNat]
                  rw [hc]
                  rfl
                · by_cases h8 : c.toNat < 32
                  · rw [escapeChar, if_neg h1, if_neg h2, if_neg h3, if_neg h4, if_neg h5,
                        if_neg h6, if_neg h7, if_pos h8]
                    show parseStringBody
                        ('\\' :: 'u' :: '0' :: '0' :: hexDigitChar (c.toNat / 16) ::
                          hexDigitChar (c.toNat % 16) :: (escapeList cs ++ ('\"' :: rest))) = _
                    rw [psb_esc_u, ih]
                    have hd1 : hexVal (hexDigitChar (c.toNat / 16)) = c.toNat / 16 :=
                      hexVal_hexDigitChar _ (by omega)
                    have hd2 : hexVal (hexDigitChar (c.toNat % 16)) = c.toNat % 16 :=
                      hexVal_hexDigitChar _ (by omega)
                    have hz : hexVal '0' = 0 := rfl
                    rw [hz, hd1, hd2]
                    have hsum : 0 * 4096 + 0 * 256 + c.toNat / 16 * 16 + c.toNat % 16 = c.toNat := by
                      have := Nat.div_add_mod c.toNat 16
                      omega
                    rw [hsum, Char.ofNat_toNat]
                    rfl
                  · rw [escapeChar, if_neg h1, if_neg h2, if_neg h3, if_neg h4, if_neg h5,
                        if_neg h6, if_neg h7, if_neg h8]
                    show parseStringBody (c :: (escapeList cs ++ ('\"' :: rest))) = _
                    rw [psb_raw c _ h1 h2, ih]
                    rfl

/-- Input positions at which a rendered number is followed by no further
digit, so the digit scanner stops exactly at the number's end. -/
def noDigitHead : List Char → Prop
  | [] => True
  | c :: _ => c.isDigit = false

theorem parseDigits_cons (acc : Nat) (c : Char) (cs : List Char) :
    parseDigits acc (c :: cs) =
      if c.isDigit then parseDigits (acc * 10 + (c.toNat - 48)) cs
      else (acc, c :: cs) := by
  rw [parseDigits.eq_def]

theorem parseDigits_stop (m : Nat) (rest : List Char) (h : noDigitHead rest) :
    parseDigits m rest = (m, rest) := by
  cases rest with
  | nil => rfl
  | cons c cs =>
    have hc : c.isDigit = false := h
    rw [parseDigits_cons, if_neg (by simp [hc])]

theorem toDecimal_digit_cons (n : Nat) :
    ∃ d tail, d < 10 ∧ toDecimal n = Char.ofNat (48 + d) :: tail := by
  induction n using Nat.strong_induction_on with
  | _ n ih =>
    by_cases h : n < 10
    · exact ⟨n, [], h, by rw [toDecimal, if_pos h]⟩
    · obtain ⟨d, tail, hd, heq⟩ := ih (n / 10) (Nat.div_lt_self (by omega) (by omega))
      refine ⟨d, tail ++ [Char.ofNat (48 + n % 10)], hd, ?_⟩
      rw [toDecimal, if_neg h, heq]
      rfl

theorem parseDigits_append (n : Nat) : ∀ (acc : Nat) (rest : List Char),
    parseDigits acc (toDecimal n ++ rest) =
      parseDigits (acc * 10 ^ (toDecimal n).length + n) rest := by
  induction n using Nat.strong_induction_on with
  | _ n ih =>
    intro acc rest
    by_cases h : n < 10
    · rw [toDecimal, if_pos h]
      obtain ⟨hdig, htn, -⟩ := decimal_digit_facts n h
      show parseDigits acc (Char.ofNat (48 + n) :: rest) = _
      rw [parseDigits_cons, if_pos hdig, htn]
      congr 1
      simp
    · have hlt : n / 10 < n := Nat.div_lt_self (by omega) (by omega)
      rw [toDecimal, if_neg h]
      rw [List.append_assoc]
      rw [ih (n / 10) hlt acc]
      obtain ⟨hdig, htn, -⟩ := decimal_digit_facts (n % 10) (by omega)
      show parseDigits _ (Char.ofNat (48 + n % 10) :: rest) = _
      rw [parseDigits_cons, if_pos hdig, htn]
      congr 1
      have hlen : (toDecimal (n / 10) ++ [Char.ofNat (48 + n % 10)]).length =
          (toDecimal (n / 10)).length + 1 := by simp
      rw [hlen]
      have hpow : (10 : Nat) ^ ((toDecimal (n / 10)).length + 1) =
          10 ^ (toDecimal (n / 10)).length * 10 := by
        rw [Nat.pow_succ]
      rw [hpow]
      have hmod := Nat.div_add_mod n 10
      generalize (10 : Nat) ^ (toDecimal (n / 10)).length = X
      have h48 : 48 + n % 10 - 48 = n % 10 := by omega
      rw [h48]
      ring_nf
      omega

theorem parseDigits_full (n : Nat) (rest : List Char) (h : noDigitHead rest) :
    parseDigits 0 (toDecimal n ++ rest) = (n, rest) := by
  rw [parseDigits_append]
  simp only [Nat.zero_mul, Nat.zero_add]
  exact parseDigits_stop n rest h

theorem parseValue_pad (fuel k : Nat) (l : List Char) :
    parseValue fuel (pad k ++ l) = parseValue fuel l := by
  rw [← parseValue_skipWs fuel (pad k ++ l), skipWs_pad, parseValue_skipWs]

theorem parseValue_cons_ws (fuel : Nat) (c : Char) (l : List Char) (h : isWs c = true) :
    parseValue fuel (c :: l) = parseValue fuel l := by
  rw [← parseValue_skipWs fuel (c :: l), skipWs_cons_ws _ _ h, parseValue_skipWs]

theorem parseArrItems_cons_ws (fuel : Nat) (c : Char) (l : List Char) (h : isWs c = true) :
    parseArrItems fuel (c :: l) = parseArrItems fuel l := by
  rw [← parseArrItems_skipWs fuel (c :: l), skipWs_cons_ws _ _ h, parseArrItems_skipWs]

theorem parseObjItems_cons_ws (fuel : Nat) (c : Char) (l : List Char) (h : isWs c = true) :
    parseObjItems fuel (c :: l) = parseObjItems fuel l := by
  rw [← parseObjItems_skipWs fuel (c :: l), skipWs_cons_ws _ _ h, parseObjItems_skipWs]

theorem parseValue_rbracket (fuel : Nat) (rest : List Char) :
    parseValue fuel (']' :: rest) = none := by
  cases fuel with
  | zero => rfl
  | succ f =>
    rw [parseValue, skipWs_cons_not _ _ (by decide)]
    simp

theorem parseArrItems_rbracket (fuel : Nat) (rest : List Char) :
    parseArrItems fuel (']' :: rest) = none := by
  cases fuel with
  | zero => rfl
  | succ f =>
    rw [parseArrItems, parseValue_rbracket]

theorem parseObjItems_rbrace (fuel : Nat) (rest : List Char) :
    parseObjItems fuel ('}' :: rest) = none := by
  cases fuel with
  | zero => rfl
  | succ f =>
    rw [parseObjItems, skipWs_cons_not _ _ (by decide)]
    simp

theorem parseValue_null (f : Nat) (rest : List Char) :
    parseValue (f + 1) ('n' :: 'u' :: 'l' :: 'l' :: rest) = some (Json.null, rest) := by
  rw [parseValue, skipWs_cons_not _ _ (by decide)]
  simp

theorem parseValue_str (f : Nat) (s : List Char) (rest : List Char) :
    parseValue (f + 1) ('\"' :: (escapeList s ++ ('\"' :: rest))) =
      some (Json.str (String.mk s), rest) := by
  rw [parseValue, skipWs_cons_not _ _ (by decide)]
  simp only [reduceIte]
  rw [parseStringBody_escape]

theorem parseValue_num (n : Nat) (fuel : Nat) (rest : List Char) (h : noDigitHead rest) :
    parseValue (fuel + 1) (toDecimal n ++ rest) = some (Json.num n, rest) := by
  obtain ⟨d, tail, hd, heq⟩ := toDecimal_digit_cons n
  obtain ⟨hdig, htn, hws, hq, hn, hb, hk, -, -, -⟩ := decimal_digit_facts d hd
  have hfull := parseDigits_full n rest h
  rw [heq] at hfull
  rw [List.cons_append] at hfull
  rw [parseDigits_cons, if_pos hdig, htn] at hfull
  have harith : 0 * 10 + (48 + d - 48) = d := by omega
  rw [harith] at hfull
  rw [heq, List.cons_append]
  rw [parseValue, skipWs_cons_not _ _ hws]
  simp only [if_neg hq, if_neg hn, if_neg hb, if_neg hk, if_pos hdig]
  rw [htn]
  rw [show 48 + d - 48 = d from by omega]
  rw [hfull]

theorem noDigitHead_cons (c : Char) (l : List Char) (h : c.isDigit = false) :
    noDigitHead (c :: l) := h

theorem parseValue_arr_empty (f : Nat) (rest : List Char) :
    parseValue (f + 1) ('[' :: ']' :: rest) = some (Json.arr [], rest) := by
  have h1 : skipWs (']' :: rest) = ']' :: rest := skipWs_cons_not _ _ (by decide)
  rw [parseValue, skipWs_cons_not _ _ (by decide)]
  simp [h1, parseArrItems_rbracket]

theorem parseValue_obj_empty (f : Nat) (rest : List Char) :
    parseValue (f + 1) ('{' :: '}' :: rest) = some (Json.obj [], rest) := by
  have h1 : skipWs ('}' :: rest) = '}' :: rest := skipWs_cons_not _ _ (by decide)
  rw [parseValue, skipWs_cons_not _ _ (by decide)]
  simp [h1, parseObjItems_rbrace]


mutual
theorem parse_renderV : ∀ (j : Json) (fuel i : Nat) (rest : List Char),
    fuelV j ≤ fuel → noDigitHead rest →
    parseValue fuel (renderV j i ++ rest) = some (j, rest)
  | Json.null, fuel, _, rest, hfuel, _ => by
    cases fuel with
    | zero => exact absurd hfuel (by rw [show fuelV Json.null = 1 from rfl]; omega)
    | succ f => exact parseValue_null f rest
  | Json.num n, fuel, _, rest, hfuel, hrest => by
    cases fuel with
    | zero => exact absurd hfuel (by rw [show fuelV (Json.num n) = 1 from rfl]; omega)
    | succ f => exact parseValue_num n f rest hrest
  | Json.str s, fuel, _, rest, hfuel, _ => by
    cases fuel with
    | zero => exact absurd hfuel (by rw [show fuelV (Json.str s) = 1 from rfl]; omega)
    | succ f =>
      show parseValue (f + 1) ('\"' :: ((escapeList s.data ++ ['\"']) ++ rest)) =
        some (Json.str s, rest)
      rw [List.append_assoc]
      exact parseValue_str f s.data rest
  | Json.arr [], fuel, _, rest, hfuel, _ => by
    cases fuel with
    | zero => exact absurd hfuel (by rw [show fuelV (Json.arr []) = 1 from rfl]; omega)
    | succ f => exact parseValue_arr_empty f rest
  | Json.arr (x :: xs), fuel, i, rest, hfuel, _ => by
    have hfe : fuelV (Json.arr (x :: xs)) = 1 + fuelItemsA (x :: xs) := rfl
    cases fuel with
    | zero => exact absurd hfuel (by rw [hfe]; omega)
    | succ f =>
      have hle : fuelItemsA (x :: xs) ≤ f := by rw [hfe] at hfuel; omega
      show parseValue (f + 1)
          (('[' :: '\n' :: (renderArrItems (x :: xs) (i + 1) ++ ('\n' :: pad i ++ [']']))) ++ rest) =
        some (Json.arr (x :: xs), rest)
      have hnorm : (('[' :: '\n' :: (renderArrItems (x :: xs) (i + 1) ++
            ('\n' :: pad i ++ [']']))) ++ rest) =
          '[' :: '\n' :: (renderArrItems (x :: xs) (i + 1) ++
            ('\n' :: (pad i ++ (']' :: rest)))) := by
        simp
      rw [hnorm]
      rw [parseValue, skipWs_cons_not _ _ (by decide)]
      have harr := parse_renderArr x xs f i rest hle
      have hws : skipWs ('\n' :: (renderArrItems (x :: xs) (i + 1) ++
          ('\n' :: (pad i ++ (']' :: rest))))) =
          skipWs (renderArrItems (x :: xs) (i + 1) ++ ('\n' :: (pad i ++ (']' :: rest)))) :=
        skipWs_cons_ws _ _ (by decide)
      simp only [reduceIte, hws, parseArrItems_skipWs, harr]
      rfl
  | Json.obj [], fuel, _, rest, hfuel, _ => by
    cases fuel with
    | zero => exact absurd hfuel (by rw [show fuelV (Json.obj []) = 1 from rfl]; omega)
    | succ f => exact parseValue_obj_empty f rest
  | Json.obj ((k, v) :: kvs), fuel, i, rest, hfuel, _ => by
    have hfe : fuelV (Json.obj ((k, v) :: kvs)) = 1 + fuelItemsO ((k, v) :: kvs) := rfl
    cases fuel with
    | zero => exact absurd hfuel (by rw [hfe]; omega)
    | succ f =>
      have hle : fuelItemsO ((k, v) :: kvs) ≤ f := by rw [hfe] at hfuel; omega
      show parseValue (f + 1)
          (('{' :: '\n' :: (renderObjItems ((k, v) :: kvs) (i + 1) ++ ('\n' :: pad i ++ ['}']))) ++ rest) =
        some (Json.obj ((k, v) :: kvs), rest)
      have hnorm : (('{' :: '\n' :: (renderObjItems ((k, v) :: kvs) (i + 1) ++
            ('\n' :: pad i ++ ['}']))) ++ rest) =
          '{' :: '\n' :: (renderObjItems ((k, v) :: kvs) (i + 1) ++
            ('\n' :: (pad i ++ ('}' :: rest)))) := by
        simp
      rw [hnorm]
      rw [parseValue, skipWs_cons_not _ _ (by decide)]
      have hobj := parse_renderObj k v kvs f i rest hle
      have hws : skipWs ('\n' :: (renderObjItems ((k, v) :: kvs) (i + 1) ++
          ('\n' :: (pad i ++ ('}' :: rest))))) =
          skipWs (renderObjItems ((k, v) :: kvs) (i + 1) ++ ('\n' :: (pad i ++ ('}' :: rest)))) :=
        skipWs_cons_ws _ _ (by decide)
      simp only [reduceIte, hws, parseObjItems_skipWs, hobj]
      rfl
termination_by j _ _ _ _ _ => sizeOf j

theorem parse_renderArr : ∀ (x : Json) (xs : List Json) (fuel i : Nat) (rest : List Char),
    fuelItemsA (x :: xs) ≤ fuel →
    parseArrItems fuel (renderArrItems (x :: xs) (i + 1) ++ ('\n' :: (pad i ++ (']' :: rest)))) =
      some (x :: xs, rest)
  | x, [], fuel, i, rest, hfuel => by
    have hfe : fuelItemsA [x] = 1 + max (fuelV x) 0 := rfl
    cases fuel with
    | zero => exact absurd hfuel (by rw [hfe]; omega)
    | succ f =>
      have hx : fuelV x ≤ f := by rw [hfe] at hfuel; omega
      show parseArrItems (f + 1)
          ((pad (i + 1) ++ renderV x (i + 1)) ++ ('\n' :: (pad i ++ (']' :: rest)))) = _
      rw [List.append_assoc]
      rw [parseArrItems, parseValue_pad]
      rw [parse_renderV x f (i + 1) ('\n' :: (pad i ++ (']' :: rest))) hx
        (noDigitHead_cons _ _ (by decide))]
      have hskip : skipWs ('\n' :: (pad i ++ (']' :: rest))) = ']' :: rest := by
        rw [skipWs_cons_ws _ _ (by decide), skipWs_pad, skipWs_cons_not _ _ (by decide)]
      simp [hskip]
  | x, y :: ys, fuel, i, rest, hfuel => by
    have hfe : fuelItemsA (x :: y :: ys) = 1 + max (fuelV x) (fuelItemsA (y :: ys)) := rfl
    cases fuel with
    | zero => exact absurd hfuel (by rw [hfe]; omega)
    | succ f =>
      have hx : fuelV x ≤ f := by rw [hfe] at hfuel; omega
      have hys : fuelItemsA (y :: ys) ≤ f := by rw [hfe] at hfuel; omega
      show parseArrItems (f + 1)
          ((pad (i + 1) ++ renderV x (i + 1) ++ (',' :: '\n' :: renderArrItems (y :: ys) (i + 1))) ++
            ('\n' :: (pad i ++ (']' :: rest)))) = _
      have hnorm : ((pad (i + 1) ++ renderV x (i + 1) ++
            (',' :: '\n' :: renderArrItems (y :: ys) (i + 1))) ++
            ('\n' :: (pad i ++ (']' :: rest)))) =
          pad (i + 1) ++ (renderV x (i + 1) ++ (',' :: '\n' :: (renderArrItems (y :: ys) (i + 1) ++
            ('\n' :: (pad i ++ (']' :: rest)))))) := by
        simp
      rw [hnorm, parseArrItems, parseValue_pad]
      rw [parse_renderV x f (i + 1)
        (',' :: '\n' :: (renderArrItems (y :: ys) (i + 1) ++ ('\n' :: (pad i ++ (']' :: rest)))))
        hx (noDigitHead_cons _ _ (by decide))]
      have hcomma : skipWs (',' :: '\n' :: (renderArrItems (y :: ys) (i + 1) ++
          ('\n' :: (pad i ++ (']' :: rest))))) =
          ',' :: '\n' :: (renderArrItems (y :: ys) (i + 1) ++ ('\n' :: (pad i ++ (']' :: rest)))) :=
        skipWs_cons_not _ _ (by decide)
      have hnl : parseArrItems f ('\n' :: (renderArrItems (y :: ys) (i + 1) ++
          ('\n' :: (pad i ++ (']' :: rest))))) =
          parseArrItems f (renderArrItems (y :: ys) (i + 1) ++ ('\n' :: (pad i ++ (']' :: rest)))) :=
        parseArrItems_cons_ws _ _ _ (by decide)
      have hrec := parse_renderArr y ys f i rest hys
      simp only [hcomma, hnl, hrec]
termination_by x xs _ _ _ _ => 1 + sizeOf x + sizeOf xs

theorem parse_renderObj : ∀ (k : String) (v : Json) (kvs : List (String × Json)) (fuel i : Nat)
    (rest : List Char), fuelItemsO ((k, v) :: kvs) ≤ fuel →
    parseObjItems fuel (renderObjItems ((k, v) :: kvs) (i + 1) ++ ('\n' :: (pad i ++ ('}' :: rest)))) =
      some ((k, v) :: kvs, rest)
  | k, v, [], fuel, i, rest, hfuel => by
    have hfe : fuelItemsO [(k, v)] = 1 + max (fuelV v) 0 := rfl
    cases fuel with
    | zero => exact absurd hfuel (by rw [hfe]; omega)
    | succ f =>
      have hv : fuelV v ≤ f := by rw [hfe] at hfuel; omega
      show parseObjItems (f + 1)
          ((pad (i + 1) ++ renderString k.data ++ (':' :: ' ' :: renderV v (i + 1))) ++
            ('\n' :: (pad i ++ ('}' :: rest)))) = _
      have hnorm : ((pad (i + 1) ++ renderString k.data ++ (':' :: ' ' :: renderV v (i + 1))) ++
            ('\n' :: (pad i ++ ('}' :: rest)))) =
          pad (i + 1) ++ ('\"' :: (escapeList k.data ++ ('\"' :: (':' :: ' ' :: (renderV v (i + 1) ++
            ('\n' :: (pad i ++ ('}' :: rest)))))))) := by
        simp [renderString]
      rw [hnorm, parseObjItems, skipWs_pad, skipWs_cons_not _ _ (by decide)]
      have hval := parse_renderV v f (i + 1) ('\n' :: (pad i ++ ('}' :: rest))) hv
        (noDigitHead_cons _ _ (by decide))
      have hcolon : ∀ l : List Char, skipWs (':' :: l) = ':' :: l :=
        fun l => skipWs_cons_not _ _ (by decide)
      have hsp : ∀ l : List Char, parseValue f (' ' :: l) = parseValue f l :=
        fun l => parseValue_cons_ws f _ l (by decide)
      have hskip : skipWs ('\n' :: (pad i ++ ('}' :: rest))) = '}' :: rest := by
        rw [skipWs_cons_ws _ _ (by decide), skipWs_pad, skipWs_cons_not _ _ (by decide)]
      simp only [parseStringBody_escape, hcolon, hsp, hval, hskip]
  | k, v, (k2, v2) :: kvs2, fuel, i, rest, hfuel => by
    have hfe : fuelItemsO ((k, v) :: (k2, v2) :: kvs2) =
        1 + max (fuelV v) (fuelItemsO ((k2, v2) :: kvs2)) := rfl
    cases fuel with
    | zero => exact absurd hfuel (by rw [hfe]; omega)
    | succ f =>
      have hv : fuelV v ≤ f := by rw [hfe] at hfuel; omega
      have hkvs : fuelItemsO ((k2, v2) :: kvs2) ≤ f := by rw [hfe] at hfuel; omega
      show parseObjItems (f + 1)
          ((pad (i + 1) ++ renderString k.data ++ (':' :: ' ' :: renderV v (i + 1)) ++
            (',' :: '\n' :: renderObjItems ((k2, v2) :: kvs2) (i + 1))) ++
            ('\n' :: (pad i ++ ('}' :: rest)))) = _
      have hnorm : ((pad (i + 1) ++ renderString k.data ++ (':' :: ' ' :: renderV v (i + 1)) ++
            (',' :: '\n' :: renderObjItems ((k2, v2) :: kvs2) (i + 1))) ++
            ('\n' :: (pad i ++ ('}' :: rest)))) =
          pad (i + 1) ++ ('\"' :: (escapeList k.data ++ ('\"' :: (':' :: ' ' :: (renderV v (i + 1) ++
            (',' :: '\n' :: (renderObjItems ((k2, v2) :: kvs2) (i + 1) ++
              ('\n' :: (pad i ++ ('}' :: rest)))))))))) := by
        simp [renderString]
      rw [hnorm, parseObjItems, skipWs_pad, skipWs_cons_not _ _ (by decide)]
      have hval := parse_renderV v f (i + 1)
        (',' :: '\n' :: (renderObjItems ((k2, v2) :: kvs2) (i + 1) ++
          ('\n' :: (pad i ++ ('}' :: rest)))))
        hv (noDigitHead_cons _ _ (by decide))
      have hcolon : ∀ l : List Char, skipWs (':' :: l) = ':' :: l :=
        fun l => skipWs_cons_not _ _ (by decide)
      have hsp : ∀ l : List Char, parseValue f (' ' :: l) = parseValue f l :=
        fun l => parseValue_cons_ws f _ l (by decide)
      have hcomma : ∀ l : List Char, skipWs (',' :: l) = ',' :: l :=
        fun l => skipWs_cons_not _ _ (by decide)
      have hnl : ∀ l : List Char, parseObjItems f ('\n' :: l) = parseObjItems f l :=
        fun l => parseObjItems_cons_ws f _ l (by decide)
      have hrec := parse_renderObj k2 v2 kvs2 f i rest hkvs
      simp only [parseStringBody_escape, hcolon, hsp, hval, hcomma, hnl, hrec]
termination_by _ v kvs _ _ _ _ => 1 + sizeOf v + sizeOf kvs
end

mutual
theorem fuelV_le_renderV : ∀ (j : Json) (i : Nat), fuelV j ≤ (renderV j i).length
  | Json.null, i => by
    show fuelV Json.null ≤ (['n', 'u', 'l', 'l'] : List Char).length
    rw [show fuelV Json.null = 1 from rfl]
    simp
  | Json.num n, _ => by
    obtain ⟨d, tail, -, heq⟩ := toDecimal_digit_cons n
    show fuelV (Json.num n) ≤ (toDecimal n).length
    rw [show fuelV (Json.num n) = 1 from rfl, heq]
    simp
  | Json.str s, _ => by
    show fuelV (Json.str s) ≤ (renderString s.data).length
    rw [show fuelV (Json.str s) = 1 from rfl, renderString]
    simp
  | Json.arr [], i => by
    show fuelV (Json.arr []) ≤ (['[', ']'] : List Char).length
    rw [show fuelV (Json.arr []) = 1 from rfl]
    simp
  | Json.arr (x :: xs), i => by
    have hitems := fuelItemsA_le_render x xs i
    show fuelV (Json.arr (x :: xs)) ≤
      ('[' :: '\n' :: (renderArrItems (x :: xs) (i + 1) ++ ('\n' :: pad i ++ [']']))).length
    rw [show fuelV (Json.arr (x :: xs)) = 1 + fuelItemsA (x :: xs) from rfl]
    simp only [List.length_cons, List.length_append]
    omega
  | Json.obj [], i => by
    show fuelV (Json.obj []) ≤ (['{', '}'] : List Char).length
    rw [show fuelV (Json.obj []) = 1 from rfl]
    simp
  | Json.obj ((k, v) :: kvs), i => by
    have hitems := fuelItemsO_le_render k v kvs i
    show fuelV (Json.obj ((k, v) :: kvs)) ≤
      ('{' :: '\n' :: (renderObjItems ((k, v) :: kvs) (i + 1) ++ ('\n' :: pad i ++ ['}']))).length
    rw [show fuelV (Json.obj ((k, v) :: kvs)) = 1 + fuelItemsO ((k, v) :: kvs) from rfl]
    simp only [List.length_cons, List.length_append]
    omega
termination_by j _ => sizeOf j

theorem fuelItemsA_le_render : ∀ (x : Json) (xs : List Json) (i : Nat),
    fuelItemsA (x :: xs) ≤ (renderArrItems (x :: xs) (i + 1)).length
  | x, [], i => by
    have hx := fuelV_le_renderV x (i + 1)
    show fuelItemsA [x] ≤ (pad (i + 1) ++ renderV x (i + 1)).length
    rw [show fuelItemsA [x] = 1 + max (fuelV x) 0 from rfl]
    simp only [List.length_append, pad, List.length_replicate]
    omega
  | x, y :: ys, i => by
    have hx := fuelV_le_renderV x (i + 1)
    have hrec := fuelItemsA_le_render y ys i
    show fuelItemsA (x :: y :: ys) ≤
      (pad (i + 1) ++ renderV x (i + 1) ++
        (',' :: '\n' :: renderArrItems (y :: ys) (i + 1))).length
    rw [show fuelItemsA (x :: y :: ys) = 1 + max (fuelV x) (fuelItemsA (y :: ys)) from rfl]
    simp only [List.length_append, List.length_cons, pad, List.length_replicate]
    omega
termination_by x xs _ => 1 + sizeOf x + sizeOf xs

theorem fuelItemsO_le_render : ∀ (k : String) (v : Json) (kvs : List (String × Json)) (i : Nat),
    fuelItemsO ((k, v) :: kvs) ≤ (renderObjItems ((k, v) :: kvs) (i + 1)).length
  | k, v, [], i => by
    have hv := fuelV_le_renderV v (i + 1)
    show fuelItemsO [(k, v)] ≤
      (pad (i + 1) ++ renderString k.data ++ (':' :: ' ' :: renderV v (i + 1))).length
    rw [show fuelItemsO [(k, v)] = 1 + max (fuelV v) 0 from rfl]
    simp only [List.length_append, List.length_cons, pad, List.length_replicate]
    omega
  | k, v, (k2, v2) :: kvs2, i => by
    have hv := fuelV_le_renderV v (i + 1)
    have hrec := fuelItemsO_le_render k2 v2 kvs2 i
    show fuelItemsO ((k, v) :: (k2, v2) :: kvs2) ≤
      (pad (i + 1) ++ renderString k.data ++ (':' :: ' ' :: renderV v (i + 1)) ++
        (',' :: '\n' :: renderObjItems ((k2, v2) :: kvs2) (i + 1))).length
    rw [show fuelItemsO ((k, v) :: (k2, v2) :: kvs2) =
      1 + max (fuelV v) (fuelItemsO ((k2, v2) :: kvs2)) from rfl]
    simp only [List.length_append, List.length_cons, pad, List.length_replicate]
    omega
termination_by _ v kvs _ => 1 + sizeOf v + sizeOf kvs
end

/-- Serialized JSON text of a value, as json.dump writes it (indent=2,
ensure_ascii=False, UTF-8 text). -/
def dumps (j : Json) : String := String.mk (renderV j 0)

/-- Parse of a complete JSON document text, modelling json.load on the
grammar json.dump emits: one value, with only trailing whitespace allowed. -/
def loads (s : String) : Option Json :=
  match parseValue (s.data.length + 1) s.data with
  | some (j, rest) => if skipWs rest = [] then some j else none
  | none => none

theorem loads_dumps (j : Json) : loads (dumps j) = some j := by
  have hlen := fuelV_le_renderV j 0
  have h := parse_renderV j ((renderV j 0).length + 1) 0 [] (by omega) trivial
  rw [List.append_nil] at h
  show (match parseValue ((renderV j 0).length + 1) (renderV j 0) with
        | some (j2, rest) => if skipWs rest = [] then some j2 else none
        | none => none) = some j
  rw [h]
  rfl

theorem decodeEach_map {A B : Type} (f : B → A) (g : A → Option B)
    (h : ∀ b, g (f b) = some b) (l : List B) :
    decodeEach g (l.map f) = some l := by
  induction l with
  | nil => rfl
  | cons b rest ih =>
    show decodeEach g (f b :: rest.map f) = some (b :: rest)
    rw [decodeEach, h b, ih]

theorem jsonToQuestion_inv (q : Question) : jsonToQuestion (questionToJson q) = some q := by
  cases q with
  | mk qi l a ft e =>
    cases e with
    | none => rfl
    | some s => rfl

theorem jsonToSect_inv (s : Sect) : jsonToSect (sectToJson s) = some s := by
  cases s with
  | mk n qs =>
    have hq := decodeEach_map questionToJson jsonToQuestion jsonToQuestion_inv qs
    simp [sectToJson, jsonToSect, hq]

theorem jsonMetaEntry_inv (kv : String × Option String) :
    jsonMetaEntry (kv.1, optStrToJson kv.2) = some kv := by
  cases kv with
  | mk k v => cases v <;> rfl

theorem jsonToDoc_docToJson (d : Doc) : jsonToDoc (docToJson d) = some d := by
  cases d with
  | mk t md secs =>
    have hm := decodeEach_map (fun kv => (kv.1, optStrToJson kv.2)) jsonMetaEntry
      (fun kv => jsonMetaEntry_inv kv) md
    have hs := decodeEach_map sectToJson jsonToSect jsonToSect_inv secs
    simp [docToJson, jsonToDoc, hm, hs]

/-- C9: serializing a Document to the persisted JSON text (json.dump with
indent=2 and ensure_ascii=False, that is dumps of its JSON value) and parsing
that text back yields exactly the document's JSON value, and that value
decodes to a Doc structurally equal to the original: the round trip is
lossless for every Document. -/
theorem c9_serialization_roundtrip (d : Doc) :
    loads (dumps (docToJson d)) = some (docToJson d) ∧
    jsonToDoc (docToJson d) = some d :=
  ⟨loads_dumps (docToJson d), jsonToDoc_docToJson d⟩
